import Mathlib

/-!
# Verification of the LimitlessFlashBot off-chain orchestration core

Shallow embedding, in Lean 4, of the opportunity-detection, risk-gating and
execution-coordination logic of the LimitlessFlashBot repository:

* `RiskManager`             (risk gate: assessRisk / recordTradeResult / pause / resume)
* `QuantumSignalProcessor`  (signal scorer: processSignal / getFallbackSignal / validateSignal)
* `ArbitrageCalculator`     (scanner: findArbitrageOpportunity / calculateArbitrageProfit)
* `FlashbotsExecutor`       (execution coordinator: executeBundle / waitForBundleInclusion)
* `PriceMonitor`            (calculateVolatility)
* the orchestrator scan loop (scanForArbitrageOpportunities / executeArbitrage)

Conventions of the embedding:
* ethers `BigNumber` wei amounts are embedded as `ℤ`, with `Int.tdiv` for
  `BigNumber.div` (both truncate toward zero).
* JavaScript floating point arithmetic is embedded as exact `ℚ` arithmetic;
  `Math.sqrt` maps to `Real.sqrt`.
* `Date.now()` timestamps (milliseconds) are embedded as `ℤ` and passed
  explicitly to the operations that read the clock.
* asynchronous external calls (DEX quotes, the Python scoring subprocess, the
  Flashbots relay) are embedded as explicit environment parameters; a JS
  exception that the source catches is embedded as the value the catch block
  returns.
-/

namespace FlashBot

/-! ## String containment helper (for pause reasons and error messages) -/

/-- Helper `leadsList p s` is true when `p` is an initial segment of `s`. -/
def leadsList : List Char → List Char → Bool
  | [], _ => true
  | _ :: _, [] => false
  | a :: p, b :: s => decide (a = b) && leadsList p s

/-- Helper `hasSubstr p s` is true when the character list `p` occurs contiguously
inside the character list `s`. -/
def hasSubstr (p : List Char) : List Char → Bool
  | [] => leadsList p []
  | c :: rest => leadsList p (c :: rest) || hasSubstr p rest

/-- String-level substring test built on `hasSubstr`. -/
def containsStr (p s : String) : Bool := hasSubstr p.data s.data

/-! ## RiskManager (source: RiskManager class, `assessRisk`, `recordTradeResult`,
`pauseSystem`, `resumeSystem`, `resetDailyCountersIfNeeded`) -/

/-- Risk parameters from the `RiskManager` constructor (wei / ms / percents). -/
def maxDailyLoss : ℤ := 10 ^ 18            -- parseEther('1')

def maxSingleTradeLoss : ℤ := 10 ^ 17      -- parseEther('0.1')

def minProfitThreshold : ℤ := 10 ^ 15      -- parseEther('0.001')

def maxSlippage : ℤ := 5                   -- 5 %

def maxGasPrice : ℤ := 100 * 10 ^ 9        -- 100 gwei

def maxLiquidityUtilization : ℕ := 90

def cooldownPeriod : ℤ := 60000            -- 1 minute in ms

def maxConsecutiveFailures : ℕ := 3

def volatilityThreshold : ℚ := 0.1

def liquidityThreshold : ℤ := 10 * 10 ^ 18 -- parseEther('10')

/-- The `riskState` object of `RiskManager`. -/
structure RiskState where
  dailyLoss : ℤ
  dailyProfit : ℤ
  consecutiveFailures : ℕ
  lastTradeTime : ℤ
  totalTrades : ℕ
  successfulTrades : ℕ
  lastResetTime : ℤ
  isPaused : Bool
  pauseReason : Option String
  deriving Repr, DecidableEq

/-- The slice of an opportunity read by the risk checks:
`estimatedProfit` and `amount`, both wei `BigNumber`s. -/
structure RiskOpportunity where
  estimatedProfit : ℤ
  amount : ℤ
  deriving Repr, DecidableEq

/-- One element of the `riskChecks` array: `{name, passed, weight}`
(the formatted `value`/`threshold` strings are presentation only). -/
structure RiskCheck where
  name : String
  passed : Bool
  weight : ℚ
  deriving Repr

/-- Source `checkProfitThreshold`: `estimatedProfit.gte(minProfitThreshold)`, weight 0.2. -/
def checkProfitThreshold (opp : RiskOpportunity) : RiskCheck :=
  { name := "profit_threshold"
    passed := decide (minProfitThreshold ≤ opp.estimatedProfit)
    weight := 0.2 }

/-- Source `checkDailyLossLimit`: `dailyLoss + amount*maxSlippage/100 ≤ maxDailyLoss`,
weight 0.3 (`BigNumber.div` truncates toward zero). -/
def checkDailyLossLimit (st : RiskState) (opp : RiskOpportunity) : RiskCheck :=
  let estimatedLoss := Int.tdiv (opp.amount * maxSlippage) 100
  { name := "daily_loss_limit"
    passed := decide (st.dailyLoss + estimatedLoss ≤ maxDailyLoss)
    weight := 0.3 }

/-- Source `checkSingleTradeLossLimit`: `amount*maxSlippage/100 ≤ maxSingleTradeLoss`,
weight 0.2. -/
def checkSingleTradeLossLimit (opp : RiskOpportunity) : RiskCheck :=
  let estimatedLoss := Int.tdiv (opp.amount * maxSlippage) 100
  { name := "single_trade_loss_limit"
    passed := decide (estimatedLoss ≤ maxSingleTradeLoss)
    weight := 0.2 }

/-- Source `estimateSlippage`: `0.1 * (1 + min(amountETH/10, 5))`
where `amountETH = formatEther(amount)`. -/
def estimateSlippage (opp : RiskOpportunity) : ℚ :=
  let amountETH : ℚ := (opp.amount : ℚ) / 10 ^ 18
  let sizeMultiplier := min (amountETH / 10) 5
  0.1 * (1 + sizeMultiplier)

/-- Source `checkSlippage`: `estimateSlippage(opportunity) ≤ maxSlippage`, weight 0.15. -/
def checkSlippage (opp : RiskOpportunity) : RiskCheck :=
  { name := "slippage_check"
    passed := decide (estimateSlippage opp ≤ (maxSlippage : ℚ))
    weight := 0.15 }

/-- Source `checkGasPrice`: hard-coded mock `currentGasPrice = 50 gwei ≤ maxGasPrice`,
weight 0.1. -/
def checkGasPrice : RiskCheck :=
  let currentGasPrice : ℤ := 50 * 10 ^ 9
  { name := "gas_price_check"
    passed := decide (currentGasPrice ≤ maxGasPrice)
    weight := 0.1 }

/-- Source `checkLiquidityUtilization`: hard-coded mock `75 ≤ maxLiquidityUtilization`,
weight 0.1. -/
def checkLiquidityUtilization : RiskCheck :=
  let utilizationPercentage : ℕ := 75
  { name := "liquidity_utilization"
    passed := decide (utilizationPercentage ≤ maxLiquidityUtilization)
    weight := 0.1 }

/-- Source `checkCooldownPeriod`: `Date.now() - lastTradeTime ≥ cooldownPeriod`, weight 0.05. -/
def checkCooldownPeriod (now : ℤ) (st : RiskState) : RiskCheck :=
  { name := "cooldown_period"
    passed := decide (cooldownPeriod ≤ now - st.lastTradeTime)
    weight := 0.05 }

/-- Source `checkConsecutiveFailures`: `consecutiveFailures < maxConsecutiveFailures`,
weight 0.2. -/
def checkConsecutiveFailures (st : RiskState) : RiskCheck :=
  { name := "consecutive_failures"
    passed := decide (st.consecutiveFailures < maxConsecutiveFailures)
    weight := 0.2 }

/-- Source `checkVolatility`: hard-coded mock volatility `0.05 ≤ volatilityThreshold`,
weight 0.15. -/
def checkVolatility : RiskCheck :=
  let volatility : ℚ := 0.05
  { name := "volatility_check"
    passed := decide (volatility ≤ volatilityThreshold)
    weight := 0.15 }

/-- Source `checkLiquidityThreshold`: hard-coded mock `50 ETH ≥ liquidityThreshold`,
weight 0.1. -/
def checkLiquidityThreshold : RiskCheck :=
  let availableLiquidity : ℤ := 50 * 10 ^ 18
  { name := "liquidity_threshold"
    passed := decide (liquidityThreshold ≤ availableLiquidity)
    weight := 0.1 }

/-- The `riskChecks` array awaited in `assessRisk`, in source order. -/
def riskChecks (now : ℤ) (st : RiskState) (opp : RiskOpportunity) : List RiskCheck :=
  [checkProfitThreshold opp,
   checkDailyLossLimit st opp,
   checkSingleTradeLossLimit opp,
   checkSlippage opp,
   checkGasPrice,
   checkLiquidityUtilization,
   checkCooldownPeriod now st,
   checkConsecutiveFailures st,
   checkVolatility,
   checkLiquidityThreshold]

/-- Source `calculateRiskScore`: accumulate `totalWeight` and `weightedScore`
(failed checks contribute their weight), return
`weightedScore / totalWeight` when `totalWeight > 0`, else `1.0`. -/
def calculateRiskScore (checks : List RiskCheck) : ℚ :=
  let totalWeight := (checks.map (fun c => c.weight)).sum
  let weightedScore := (checks.map (fun c => if c.passed then 0 else c.weight)).sum
  if 0 < totalWeight then weightedScore / totalWeight else 1

/-- Source `getFailureReason` is presentation only; the embedding keeps the reason of
the paused branch and summarizes the rest. -/
def assessReason (approved : Bool) : String :=
  if approved then "Risk assessment passed" else "risk check failed"

/-- The value returned by `assessRisk`. -/
structure RiskAssessment where
  approved : Bool
  riskScore : ℚ
  checks : List RiskCheck
  reason : String

/-- Source `resetDailyCountersIfNeeded`: when `Date.now() - lastResetTime ≥ 24h`,
zero the daily counters and stamp `lastResetTime`. -/
def resetDailyCountersIfNeeded (now : ℤ) (st : RiskState) : RiskState :=
  let oneDayMs : ℤ := 24 * 60 * 60 * 1000
  if oneDayMs ≤ now - st.lastResetTime then
    { st with dailyLoss := 0, dailyProfit := 0, lastResetTime := now }
  else st

/-- Source `assessRisk` : reset daily counters if needed, refuse while paused
(riskScore 1.0), else run the ten checks, score them, and approve exactly when
every check passed and the score is `< 0.7`.  Returns the assessment together
with the post-call risk state. -/
def assessRisk (now : ℤ) (st : RiskState) (opp : RiskOpportunity) :
    RiskAssessment × RiskState :=
  let st1 := resetDailyCountersIfNeeded now st
  if st1.isPaused then
    ({ approved := false
       riskScore := 1
       checks := []
       reason := "System paused: " ++ (st1.pauseReason.getD "null") }, st1)
  else
    let checks := riskChecks now st1 opp
    let riskScore := calculateRiskScore checks
    let approved := checks.all (fun c => c.passed) && decide (riskScore < 0.7)
    ({ approved := approved
       riskScore := riskScore
       checks := checks
       reason := assessReason approved }, st1)

/-- Source `pauseSystem(reason)`. -/
def pauseSystem (reason : String) (st : RiskState) : RiskState :=
  { st with isPaused := true, pauseReason := some reason }

/-- Source `resumeSystem()`. -/
def resumeSystem (st : RiskState) : RiskState :=
  { st with isPaused := false, pauseReason := none, consecutiveFailures := 0 }

/-- Source `recordTradeResult(opportunity, result)`: bump totals and `lastTradeTime`;
on success zero `consecutiveFailures` and add the estimated profit to
`dailyProfit`; on failure increment `consecutiveFailures`, add the estimated
profit to `dailyLoss`, and auto-pause once
`consecutiveFailures ≥ maxConsecutiveFailures`. -/
def recordTradeResult (now : ℤ) (opp : RiskOpportunity) (success : Bool)
    (st : RiskState) : RiskState :=
  let st1 := { st with totalTrades := st.totalTrades + 1, lastTradeTime := now }
  if success then
    { st1 with successfulTrades := st1.successfulTrades + 1
               consecutiveFailures := 0
               dailyProfit := st1.dailyProfit + opp.estimatedProfit }
  else
    let st2 := { st1 with consecutiveFailures := st1.consecutiveFailures + 1
                          dailyLoss := st1.dailyLoss + opp.estimatedProfit }
    if maxConsecutiveFailures ≤ st2.consecutiveFailures then
      pauseSystem ("Too many consecutive failures: " ++ toString st2.consecutiveFailures) st2
    else st2

/-! ## QuantumSignalProcessor (source: `processSignal`, `getFallbackSignal`,
`validateSignal`) -/

/-- The slice of an opportunity read by the signal scorer:
`profitability` (a JS float, profit in ETH) and `amount` (wei, used through
`parseFloat(amount.toString())`). -/
structure SigOpportunity where
  profitability : ℚ
  amount : ℚ
  deriving Repr, DecidableEq

/-- Provenance tag of a signal (the `source` field). -/
inductive SignalSource where
  | quantum
  | fallback
  deriving Repr, DecidableEq

/-- The signal value produced by `processSignal` / `getFallbackSignal`
(the `quantum_features` and `timestamp` fields are presentation only). -/
structure Signal where
  signal_strength : ℚ
  confidence : ℚ
  source : SignalSource
  deriving Repr, DecidableEq

/-- Source `getFallbackSignal`: `profitScore = min(profitability*10, 1.0)`,
`amountScore = min(amount/1e20, 1.0)`, strength their average,
`confidence = max(0.3, min(0.8, strength))`, source `'fallback'`. -/
def getFallbackSignal (opp : SigOpportunity) : Signal :=
  let profitScore := min (opp.profitability * 10) 1
  let amountScore := min (opp.amount / 10 ^ 20) 1
  let strength := (profitScore + amountScore) / 2
  { signal_strength := strength
    confidence := max 0.3 (min 0.8 strength)
    source := SignalSource.fallback }

/-- Outcome of `runPythonScript`, the external scoring call: either a resolved
`{error: ...}` object (subprocess failure, timeout, unparsable output) or the
parsed `{signal_strength, confidence}` payload. A JS exception thrown anywhere
in the `try` of `processSignal` is covered by the error case, since
`processSignal` treats both identically. -/
inductive ScoringOutcome where
  | failed (msg : String)
  | scored (signal_strength confidence : ℚ)
  deriving Repr, DecidableEq

/-- Source `processSignal`: fall back when the processor is uninitialized or the
external call reports an error; otherwise pass the external
`signal_strength`/`confidence` through unchanged with source `'quantum'`.
(The source never invokes `validateSignal` on this path.) -/
def processSignal (isInitialized : Bool) (ext : ScoringOutcome)
    (opp : SigOpportunity) : Signal :=
  if !isInitialized then getFallbackSignal opp
  else
    match ext with
    | ScoringOutcome.failed _ => getFallbackSignal opp
    | ScoringOutcome.scored s c =>
        { signal_strength := s, confidence := c, source := SignalSource.quantum }

/-- Source `validateSignal`: both numeric fields must lie in `[0, 1]`
(the `typeof ... === 'number'` guards are discharged by the embedding's types). -/
def validateSignal (sig : Signal) : Bool :=
  decide (0 ≤ sig.signal_strength) && decide (sig.signal_strength ≤ 1) &&
  decide (0 ≤ sig.confidence) && decide (sig.confidence ≤ 1)

/-! ## ArbitrageCalculator (source: `findArbitrageOpportunity`,
`calculateArbitrageProfit`, `calculateGasCosts`) -/

/-- The two DEX routers that `calculateArbitrageProfit` actually quotes
(`UNISWAP_V3` always yields `null` in `getAmountOut` and never forms a path). -/
inductive Dex where
  | uniswapV2
  | sushiswap
  deriving Repr, DecidableEq

/-- External quote capability: `getAmountOut(tokenIn, tokenOut, amountIn, dex)`.
The calculator only ever quotes the fixed pair in its two directions, so the
token arguments are embedded as a direction flag (`true` = token0 → token1);
`none` is a reverted/unavailable quote (the source catches and returns `null`).
`getPrice` is non-null exactly when this is. -/
def QuoteEnv : Type := Bool → ℤ → Dex → Option ℤ

/-- One candidate of the `opportunities` array inside
`calculateArbitrageProfit`. -/
structure ArbCandidate where
  profit : ℤ
  amount : ℤ
  router1 : Dex
  router2 : Dex
  deriving Repr, DecidableEq

/-- Second hop of a candidate path: quote the reverse direction at the
intermediate amount and keep the round trip only when strictly profitable. -/
def candidateForPath (env : QuoteEnv) (amount : ℤ) (r1 r2 : Dex)
    (firstHop : Option ℤ) (reverseQuote : Option ℤ) : List ArbCandidate :=
  match firstHop, reverseQuote with
  | some intermediateAmount, some _ =>
      match env false intermediateAmount r2 with
      | some finalAmount =>
          if amount < finalAmount then
            [{ profit := finalAmount - amount, amount := amount,
               router1 := r1, router2 := r2 }]
          else []
      | none => []
  | _, _ => []

/-- Source `calculateArbitrageProfit`: quote both directions on both routers, build
the candidate list (UniV2→Sushi, then Sushi→UniV2, each requiring the forward
quote and the reverse-direction price to be non-null and the round trip to beat
`amount`), and reduce it keeping the strictly larger profit (ties keep the
earlier candidate). -/
def calculateArbitrageProfit (env : QuoteEnv) (amount : ℤ) : Option ArbCandidate :=
  let uniV2_0to1 := env true amount Dex.uniswapV2
  let sushi_0to1 := env true amount Dex.sushiswap
  let uniV2_1to0 := env false amount Dex.uniswapV2
  let sushi_1to0 := env false amount Dex.sushiswap
  let opportunities :=
    candidateForPath env amount Dex.uniswapV2 Dex.sushiswap uniV2_0to1 sushi_1to0 ++
    candidateForPath env amount Dex.sushiswap Dex.uniswapV2 sushi_0to1 uniV2_1to0
  match opportunities with
  | [] => none
  | c :: cs => some (cs.foldl (fun best current =>
      if best.profit < current.profit then current else best) c)

/-- The `testAmounts` ladder: 1, 5, 10, 50 and 100 ether. -/
def testAmounts : List ℤ :=
  [10 ^ 18, 5 * 10 ^ 18, 10 * 10 ^ 18, 50 * 10 ^ 18, 100 * 10 ^ 18]

/-- The scan loop of `findArbitrageOpportunity`: track `bestOpportunity` and
`maxProfit` (initially `null` / 0), replacing them on a strictly larger
profit. -/
def scanAmounts (env : QuoteEnv) :
    List ℤ → Option ArbCandidate × ℤ → Option ArbCandidate × ℤ
  | [], acc => acc
  | amount :: rest, (best, maxProfit) =>
      match calculateArbitrageProfit env amount with
      | some c =>
          if maxProfit < c.profit then scanAmounts env rest (some c, c.profit)
          else scanAmounts env rest (best, maxProfit)
      | none => scanAmounts env rest (best, maxProfit)

/-- The opportunity object constructed by `findArbitrageOpportunity`
(token/path/router fields other than the amounts are presentation only;
`profitability = parseFloat(formatEther(maxProfit))`). -/
structure ArbOpportunity where
  amount : ℤ
  estimatedProfit : ℤ
  minProfit : ℤ
  profitability : ℚ
  deriving Repr, DecidableEq

/-- The final guard of `findArbitrageOpportunity`: if a best candidate exists
and `maxProfit > parseEther('0.001')`, construct the opportunity with
`estimatedProfit = maxProfit` and `minProfit = maxProfit * 95 / 100`
(5 % slippage tolerance), else return `null`. -/
def constructOpportunity : Option ArbCandidate × ℤ → Option ArbOpportunity
  | (some best, maxProfit) =>
      if 10 ^ 15 < maxProfit then
        some { amount := best.amount
               estimatedProfit := maxProfit
               minProfit := Int.tdiv (maxProfit * 95) 100
               profitability := (maxProfit : ℚ) / 10 ^ 18 }
      else none
  | (none, _) => none

/-- Source `findArbitrageOpportunity`: scan the amount ladder, then apply the final
profit-floor guard. -/
def findArbitrageOpportunity (env : QuoteEnv) : Option ArbOpportunity :=
  constructOpportunity (scanAmounts env testAmounts (none, 0))

/-- Source `calculateGasCosts`: `gasPrice * 300000` (the estimated flash-loan gas). -/
def calculateGasCosts (gasPrice : ℤ) : ℤ := gasPrice * 300000

/-! ## FlashbotsExecutor (source: `executeBundle`, `submitBundle`,
`waitForBundleInclusion`) -/

/-- External relay/provider behaviour seen by one `executeBundle` call:
* `submitOutcome` — `submitBundle` either resolves a bundle hash or an error
  message (relay rejection / signing failure);
* `blockOk i` — whether `waitForBlock` for the `i`-th inclusion check resolves
  (`false` = the 30 s block timeout rejects, caught by the wait loop);
* `isMined i` — `getBundleStats(...).isMined` for the `i`-th check. -/
structure ExecEnv where
  submitOutcome : Except String String
  blockOk : ℕ → Bool
  isMined : ℕ → Bool

/-- The result object of `executeBundle` (bundle hash / tx hash are
presentation only). -/
structure ExecResult where
  success : Bool
  error : Option String
  deriving Repr, DecidableEq

/-- The inclusion-wait loop of `waitForBundleInclusion` over the remaining
check indices, paired with the number of `getBundleStats` polls it performs.
A `waitForBlock` rejection is caught by the surrounding `try` and returns a
failure with that error; a mined bundle returns success; an exhausted window
returns the "not included" failure. -/
def waitChecks (env : ExecEnv) : List ℕ → ExecResult × ℕ
  | [] => ({ success := false, error := some "Bundle not included within wait period" }, 0)
  | i :: rest =>
      if !env.blockOk i then
        ({ success := false, error := some "Timeout waiting for block" }, 0)
      else if env.isMined i then
        ({ success := true, error := none }, 1)
      else
        let r := waitChecks env rest
        (r.1, r.2 + 1)

/-- Source `waitForBundleInclusion` with `maxWaitBlocks = 3`: check the target block
and the two following it. -/
def waitForBundleInclusion (env : ExecEnv) : ExecResult × ℕ :=
  waitChecks env [0, 1, 2]

/-- Source `executeBundle`: an empty prepared bundle or a submission error throws into
the surrounding `catch`, which returns a failure result immediately (zero
inclusion polls); otherwise the call waits for inclusion.  `txCount` is the
length of the prepared bundle (per-transaction preparation failures only drop
transactions from it). The function always returns a result value — every
throwing path is caught — so the second component counts the
`getBundleStats` polls performed. -/
def executeBundle (env : ExecEnv) (txCount : ℕ) : ExecResult × ℕ :=
  if txCount = 0 then
    ({ success := false, error := some "No valid transactions in bundle" }, 0)
  else
    match env.submitOutcome with
    | Except.error e =>
        ({ success := false, error := some ("Bundle submission failed: " ++ e) }, 0)
    | Except.ok _ => waitForBundleInclusion env

/-! ## Orchestrator scan loop (source: `scanForArbitrageOpportunities`,
`executeArbitrage`)

The scan timer fires every 2 s with an `async` callback; the JavaScript event
loop runs the code between two `await`s atomically, and interleaves overlapping
timer callbacks only at `await` boundaries.  The shared-resource events of one
approved pair are the start of the awaited `flashbotsExecutor.executeBundle`
call and its completion; an execution is *in flight* between the two.  The
source consults no in-flight bookkeeping before calling `executeBundle`. -/

/-- Observable events of the scan loop relevant to in-flight accounting. -/
inductive ExecEvent where
  | startBundle
  | finishBundle
  deriving Repr, DecidableEq

/-- Event trace of one `executeArbitrage` call for an approved opportunity:
it awaits `executeBundle` once (start, then completion), with no guard
in between or before. -/
def executeArbitrageTrace : List ExecEvent :=
  [ExecEvent.startBundle, ExecEvent.finishBundle]

/-- Event trace of one `scanForArbitrageOpportunities` tick on which `n` of
the scanned pairs produce an approved opportunity for the same asset: the
`for` loop awaits each `executeArbitrage` before scanning the next pair. -/
def scanCycleTrace : ℕ → List ExecEvent
  | 0 => []
  | n + 1 => executeArbitrageTrace ++ scanCycleTrace n

/-- Number of executions in flight after a trace: bundles started minus
bundles finished. -/
def inFlight (l : List ExecEvent) : ℤ :=
  (l.count ExecEvent.startBundle : ℤ) - (l.count ExecEvent.finishBundle : ℤ)

/-- Model `isInterleaving a b l`: `l` is an event-loop interleaving of the atomic
segments of the two traces `a` and `b` (overlapping timer callbacks). -/
def isInterleaving : List ExecEvent → List ExecEvent → List ExecEvent → Bool
  | [], ys, zs => decide (ys = zs)
  | x :: xs, [], zs => decide (x :: xs = zs)
  | _ :: _, _ :: _, [] => false
  | x :: xs, y :: ys, z :: zs =>
      (decide (x = z) && isInterleaving xs (y :: ys) zs) ||
      (decide (y = z) && isInterleaving (x :: xs) ys zs)

/-! ## PriceMonitor (source: `getPriceHistory`, `calculateVolatility`) -/

/-- Source `slice(-limit)` on the recorded price series (price values only;
timestamps are not read by `calculateVolatility`).  JavaScript `slice(-0)`
copies the whole array; `slice(-limit)` with `limit > 0` keeps the last
`min(limit, length)` entries. -/
def sliceLast (history : List ℚ) (limit : ℕ) : List ℚ :=
  if limit = 0 then history else history.drop (history.length - limit)

/-- The `returns` array: successive fractional returns
`(prices[i] - prices[i-1]) / prices[i-1]`. -/
def fracReturns : List ℚ → List ℚ
  | [] => []
  | [_] => []
  | a :: b :: rest => (b - a) / a :: fracReturns (b :: rest)

/-- Arithmetic mean of a list of rationals. -/
def meanQ (l : List ℚ) : ℚ := l.sum / l.length

/-- Population variance of a list of rationals (the `reduce` in the source). -/
def varianceQ (l : List ℚ) : ℚ :=
  (l.map (fun r => (r - meanQ l) ^ 2)).sum / l.length

/-- Source `calculateVolatility(tokenSymbol, periods = 20)`: take the last `periods`
prices, return 0 when fewer than 2 samples (or, vacuously, when the returns
array is empty), else the square root of the variance of the returns. -/
noncomputable def calculateVolatility (history : List ℚ) (periods : ℕ) : ℝ :=
  let prices := sliceLast history periods
  if prices.length < 2 then 0
  else
    let returns := fracReturns prices
    if returns.length = 0 then 0
    else Real.sqrt (varianceQ returns)

/-- Modelled from the spec: "Volatility is the standard deviation of successive
fractional returns over the last `window` samples; returns 0 if fewer than 2
samples exist."  Stated over the windowed samples, for comparison with
`calculateVolatility`. -/
noncomputable def stddevOfReturns (samples : List ℚ) : ℝ :=
  if samples.length < 2 then 0
  else Real.sqrt (varianceQ (fracReturns samples))

/-! ## Concrete inputs used by witnesses and counterexamples -/

/-- The risk state created by the `RiskManager` constructor at time 0. -/
def rsZero : RiskState :=
  { dailyLoss := 0, dailyProfit := 0, consecutiveFailures := 0, lastTradeTime := 0
    totalTrades := 0, successfulTrades := 0, lastResetTime := 0
    isPaused := false, pauseReason := none }

/-- A risk state with an accumulated daily loss of 5 wei, last reset at time 0. -/
def rs5 : RiskState :=
  { dailyLoss := 5, dailyProfit := 0, consecutiveFailures := 0, lastTradeTime := 0
    totalTrades := 0, successfulTrades := 0, lastResetTime := 0
    isPaused := false, pauseReason := none }

/-- A modest opportunity: 0.01 ETH estimated profit on a 1 ETH trade. -/
def oppSmall : RiskOpportunity := { estimatedProfit := 10 ^ 16, amount := 10 ^ 18 }

/-- A quote environment in which the only profitable round trip is
1 ETH → 0.5 token1 on UniswapV2, then back to 1.002 ETH on Sushiswap:
a raw profit of 0.002 ETH, above the 0.001 ETH floor but far below a realistic
gas bill. -/
def envGasHeavy : QuoteEnv := fun fwd amt dex =>
  if fwd then
    (if amt = 10 ^ 18 ∧ dex = Dex.uniswapV2 then some (5 * 10 ^ 17) else none)
  else
    (if amt = 10 ^ 18 ∧ dex = Dex.sushiswap then some 1
     else if amt = 5 * 10 ^ 17 ∧ dex = Dex.sushiswap then some (10 ^ 18 + 2 * 10 ^ 15)
     else none)

/-- A relay environment that accepts the submission, mines every awaited block,
and never includes the bundle. -/
def envNotIncluded : ExecEnv :=
  { submitOutcome := Except.ok "0xbundle", blockOk := fun _ => true, isMined := fun _ => false }

/-- A relay environment whose submission is rejected. -/
def envRejected : ExecEnv :=
  { submitOutcome := Except.error "relay rejected bundle", blockOk := fun _ => true
    isMined := fun _ => false }

/-- The risk state after three consecutive failed trades recorded on a fresh
state at times 10, 20 and 30 ms. -/
def st3demo : RiskState :=
  recordTradeResult 30 oppSmall false
    (recordTradeResult 20 oppSmall false (recordTradeResult 10 oppSmall false rsZero))

/-- The event-loop schedule in which a second scan-timer tick reaches its
`executeBundle` call while the first tick's bundle is still pending. -/
def overlappingSchedule : List ExecEvent :=
  [ExecEvent.startBundle, ExecEvent.startBundle,
   ExecEvent.finishBundle, ExecEvent.finishBundle]

/-! ## Helper lemmas -/

lemma leadsList_append {p s : List Char} (t : List Char)
    (h : leadsList p s = true) : leadsList p (s ++ t) = true := by
  induction p generalizing s with
  | nil => rfl
  | cons a p ih =>
    cases s with
    | nil => simp [leadsList] at h
    | cons b s =>
      simp only [leadsList, Bool.and_eq_true, decide_eq_true_eq] at h
      simp only [List.cons_append, leadsList, Bool.and_eq_true, decide_eq_true_eq]
      exact ⟨h.1, ih h.2⟩

lemma hasSubstr_nil_left (s : List Char) : hasSubstr [] s = true := by
  cases s <;> rfl

lemma hasSubstr_append_left {p s : List Char} (t : List Char)
    (h : hasSubstr p s = true) : hasSubstr p (s ++ t) = true := by
  induction s with
  | nil =>
    cases p with
    | nil => simp [hasSubstr_nil_left]
    | cons a p => simp [hasSubstr, leadsList] at h
  | cons c s ih =>
    simp only [hasSubstr, Bool.or_eq_true] at h
    rcases h with h | h
    · simp only [List.cons_append, hasSubstr, Bool.or_eq_true]
      exact Or.inl (leadsList_append t h)
    · simp only [List.cons_append, hasSubstr, Bool.or_eq_true]
      exact Or.inr (ih h)

lemma containsStr_append (p s t : String) (h : containsStr p s = true) :
    containsStr p (s ++ t) = true := by
  unfold containsStr at h ⊢
  rw [String.data_append]
  exact hasSubstr_append_left _ h

lemma failedWeight_eq_filter (cs : List RiskCheck) :
    (cs.map (fun c => if c.passed then 0 else c.weight)).sum
      = ((cs.filter (fun c => !c.passed)).map (fun c => c.weight)).sum := by
  induction cs with
  | nil => rfl
  | cons c cs ih => cases hc : c.passed <;> simp [hc, ih]

lemma failedWeight_bounds (cs : List RiskCheck) (h : ∀ c ∈ cs, 0 ≤ c.weight) :
    0 ≤ (cs.map (fun c => if c.passed then 0 else c.weight)).sum ∧
      (cs.map (fun c => if c.passed then 0 else c.weight)).sum
        ≤ (cs.map (fun c => c.weight)).sum := by
  induction cs with
  | nil => simp
  | cons c cs ih =>
    have hc : 0 ≤ c.weight := h c (by simp)
    have ih' := ih (fun d hd => h d (by simp [hd]))
    cases hcp : c.passed <;> simp [hcp] <;>
      constructor <;> linarith [ih'.1, ih'.2]

lemma riskChecks_weights_sum (now : ℤ) (st : RiskState) (opp : RiskOpportunity) :
    ((riskChecks now st opp).map (fun c => c.weight)).sum = 31 / 20 := by
  simp [riskChecks, checkProfitThreshold, checkDailyLossLimit,
    checkSingleTradeLossLimit, checkSlippage, checkGasPrice,
    checkLiquidityUtilization, checkCooldownPeriod, checkConsecutiveFailures,
    checkVolatility, checkLiquidityThreshold]
  norm_num

lemma riskChecks_weights_nonneg (now : ℤ) (st : RiskState) (opp : RiskOpportunity) :
    ∀ c ∈ riskChecks now st opp, 0 ≤ c.weight := by
  intro c hc
  simp [riskChecks] at hc
  rcases hc with h | h | h | h | h | h | h | h | h | h <;> subst h <;>
    norm_num [checkProfitThreshold, checkDailyLossLimit,
      checkSingleTradeLossLimit, checkSlippage, checkGasPrice,
      checkLiquidityUtilization, checkCooldownPeriod, checkConsecutiveFailures,
      checkVolatility, checkLiquidityThreshold]

lemma reset_isPaused (now : ℤ) (st : RiskState) :
    (resetDailyCountersIfNeeded now st).isPaused = st.isPaused := by
  simp only [resetDailyCountersIfNeeded]
  split <;> rfl

lemma reset_pauseReason (now : ℤ) (st : RiskState) :
    (resetDailyCountersIfNeeded now st).pauseReason = st.pauseReason := by
  simp only [resetDailyCountersIfNeeded]
  split <;> rfl

lemma fracReturns_length (l : List ℚ) : (fracReturns l).length = l.length - 1 := by
  induction l with
  | nil => rfl
  | cons a l ih =>
    cases l with
    | nil => rfl
    | cons b r =>
      simp only [fracReturns, List.length_cons, ih]
      omega

lemma tdiv95_le (p : ℤ) (hp : 0 ≤ p) : Int.tdiv (p * 95) 100 ≤ p := by
  rw [Int.tdiv_eq_ediv (by positivity) (by norm_num)]
  calc p * 95 / 100 ≤ p * 100 / 100 :=
        Int.ediv_le_ediv (by norm_num) (by linarith)
    _ = p := Int.mul_ediv_cancel p (by norm_num)

lemma inFlight_cons_pair (l : List ExecEvent) :
    inFlight (ExecEvent.startBundle :: ExecEvent.finishBundle :: l) = inFlight l := by
  simp [inFlight, List.count_cons]

/-! ## Claim theorems -/

/-- C10: `resumeSystem` sets `isPaused := false`, clears `pauseReason`, zeroes
`consecutiveFailures`, and leaves every other `riskState` field (dailyLoss,
dailyProfit, lastTradeTime, totalTrades, successfulTrades, lastResetTime)
unchanged — resuming after an auto-pause forgets the accumulated failure
count. -/
theorem c10_resume_frame (st : RiskState) :
    (resumeSystem st).isPaused = false ∧
    (resumeSystem st).pauseReason = none ∧
    (resumeSystem st).consecutiveFailures = 0 ∧
    (resumeSystem st).dailyLoss = st.dailyLoss ∧
    (resumeSystem st).dailyProfit = st.dailyProfit ∧
    (resumeSystem st).lastTradeTime = st.lastTradeTime ∧
    (resumeSystem st).totalTrades = st.totalTrades ∧
    (resumeSystem st).successfulTrades = st.successfulTrades ∧
    (resumeSystem st).lastResetTime = st.lastResetTime := by
  simp [resumeSystem]

/-- C2 (code bug evidence): the claim says an external scoring result with
strength outside `[0,1]` is replaced by the fallback signal, and
`validateSignal` indeed classifies such a signal as invalid — but
`processSignal` never invokes `validateSignal`: on the initialized,
non-erroring path it passes the out-of-range external values through
unchanged with source `quantum`. -/
theorem c2_out_of_range_passthrough :
    processSignal true (ScoringOutcome.scored 2 (1 / 2)) ⟨1 / 100, 10 ^ 18⟩ =
      { signal_strength := 2, confidence := 1 / 2, source := SignalSource.quantum } ∧
    validateSignal
      { signal_strength := 2, confidence := 1 / 2, source := SignalSource.quantum } = false ∧
    (processSignal true (ScoringOutcome.scored 2 (1 / 2)) ⟨1 / 100, 10 ^ 18⟩).source ≠
      SignalSource.fallback ∧
    ¬ (processSignal true (ScoringOutcome.scored 2 (1 / 2))
        ⟨1 / 100, 10 ^ 18⟩).signal_strength ≤ 1 := by
  refine ⟨rfl, by decide, by decide, by norm_num [processSignal]⟩

/-- C8 (counterexample): at `profitability = -1`, `amount = 0` the fallback
signal's strength is `-5`, outside `[0,1]` and different from the claimed
`clamp((profitRatio + sizeRatio)/2, 0, 1)` — the source caps each ratio above
at 1 but never clamps below at 0. -/
theorem c8_counterexample :
    (getFallbackSignal ⟨-1, 0⟩).signal_strength = -5 ∧
    (getFallbackSignal ⟨-1, 0⟩).signal_strength < 0 ∧
    (getFallbackSignal ⟨-1, 0⟩).signal_strength ≠
      max 0 (min 1 ((min ((-1 : ℚ) * 10) 1 + min ((0 : ℚ) / 10 ^ 20) 1) / 2)) := by
  refine ⟨?_, by norm_num [getFallbackSignal], by norm_num [getFallbackSignal]⟩
  norm_num [getFallbackSignal]

/-- C8 (amended): the fallback signal has source `fallback`,
`strength = (min(profitRatio,1) + min(sizeRatio,1))/2` with no lower clamp,
and `confidence = clamp(strength, 0.3, 0.8) ∈ [0.3, 0.8]` unconditionally;
for a nonnegative profitability and amount the strength lies in `[0,1]` and
agrees with the spec's `clamp((profitRatio + sizeRatio)/2, 0, 1)`. -/
theorem c8_fallback_clamped (opp : SigOpportunity) :
    (getFallbackSignal opp).source = SignalSource.fallback ∧
    (getFallbackSignal opp).signal_strength =
      (min (opp.profitability * 10) 1 + min (opp.amount / 10 ^ 20) 1) / 2 ∧
    (0.3 : ℚ) ≤ (getFallbackSignal opp).confidence ∧
    (getFallbackSignal opp).confidence ≤ 0.8 ∧
    (0 ≤ opp.profitability → 0 ≤ opp.amount →
      0 ≤ (getFallbackSignal opp).signal_strength ∧
      (getFallbackSignal opp).signal_strength ≤ 1 ∧
      (getFallbackSignal opp).signal_strength =
        max 0 (min 1 ((min (opp.profitability * 10) 1 + min (opp.amount / 10 ^ 20) 1) / 2))) := by
  refine ⟨rfl, ?_, ?_, ?_, ?_⟩
  · norm_num [getFallbackSignal]
  · simp only [getFallbackSignal]
    exact le_max_left _ _
  · simp only [getFallbackSignal]
    exact max_le (by norm_num) (min_le_left _ _)
  · intro hp ha
    have h0 : (0 : ℚ) ≤ min (opp.profitability * 10) 1 :=
      le_min (by positivity) (by norm_num)
    have h0' : (0 : ℚ) ≤ min (opp.amount / 10 ^ 20) 1 :=
      le_min (by positivity) (by norm_num)
    have h1 : min (opp.profitability * 10) 1 ≤ 1 := min_le_right _ _
    have h1' : min (opp.amount / 10 ^ 20) 1 ≤ 1 := min_le_right _ _
    have hs0 : (0 : ℚ) ≤
        (min (opp.profitability * 10) 1 + min (opp.amount / 10 ^ 20) 1) / 2 := by linarith
    have hs1 : (min (opp.profitability * 10) 1 + min (opp.amount / 10 ^ 20) 1) / 2 ≤ 1 := by
      linarith
    refine ⟨?_, ?_, ?_⟩
    · simpa [getFallbackSignal] using hs0
    · simpa [getFallbackSignal] using hs1
    · simp only [getFallbackSignal]
      rw [min_eq_right hs1, max_eq_right hs0]

/-- C8 (witness): the amended theorem applied to an opportunity with
profitability 0.01 ETH and amount 1 ETH. -/
theorem c8_fallback_clamped_witness :
    (0 : ℚ) ≤ (1 / 100 : ℚ) ∧ (0 : ℚ) ≤ (10 ^ 18 : ℚ) ∧
    (0 ≤ (getFallbackSignal ⟨1 / 100, 10 ^ 18⟩).signal_strength ∧
      (getFallbackSignal ⟨1 / 100, 10 ^ 18⟩).signal_strength ≤ 1 ∧
      (getFallbackSignal ⟨1 / 100, 10 ^ 18⟩).signal_strength =
        max 0 (min 1 ((min ((1 / 100 : ℚ) * 10) 1 + min ((10 ^ 18 : ℚ) / 10 ^ 20) 1) / 2))) := by
  refine ⟨by norm_num, by norm_num, ?_⟩
  exact (c8_fallback_clamped ⟨1 / 100, 10 ^ 18⟩).2.2.2.2 (by norm_num) (by norm_num)

/-- C7 (counterexample): the schedule in which a second scan tick starts its
`executeBundle` while the first tick's bundle is pending is a legal event-loop
interleaving of two `executeArbitrage` calls — the source checks no in-flight
set — and it reaches two in-flight executions for the same asset. -/
theorem c7_counterexample :
    isInterleaving executeArbitrageTrace executeArbitrageTrace overlappingSchedule = true ∧
    inFlight (overlappingSchedule.take 2) = 2 ∧
    1 < inFlight (overlappingSchedule.take 2) := by
  refine ⟨by decide, by decide, by decide⟩

/-- C7 (amended): within a single scan cycle, executions are strictly
serialized — every prefix of one `scanForArbitrageOpportunities` tick's trace
has at most one bundle in flight (and never a negative count) because the scan
loop awaits each `executeArbitrage` before scanning the next pair.  The
original claim fails only across overlapping timer ticks, where no in-flight
set is consulted (see the counterexample). -/
theorem c7_single_cycle_serialized (n k : ℕ) :
    0 ≤ inFlight ((scanCycleTrace n).take k) ∧
      inFlight ((scanCycleTrace n).take k) ≤ 1 := by
  induction n generalizing k with
  | zero => simp [scanCycleTrace, inFlight]
  | succ n ih =>
    match k with
    | 0 => simp [inFlight]
    | 1 =>
      have h1 : (scanCycleTrace (n + 1)).take 1 = [ExecEvent.startBundle] := by
        simp [scanCycleTrace, executeArbitrageTrace]
      rw [h1]
      constructor <;> decide
    | (k + 2) =>
      have : (scanCycleTrace (n + 1)).take (k + 2) =
          ExecEvent.startBundle :: ExecEvent.finishBundle :: (scanCycleTrace n).take k := by
        simp [scanCycleTrace, executeArbitrageTrace]
      rw [this, inFlight_cons_pair]
      exact ih k

lemma rtr_true_eq (now : ℤ) (opp : RiskOpportunity) (st : RiskState) :
    recordTradeResult now opp true st =
      { st with totalTrades := st.totalTrades + 1, lastTradeTime := now
                successfulTrades := st.successfulTrades + 1, consecutiveFailures := 0
                dailyProfit := st.dailyProfit + opp.estimatedProfit } := rfl

lemma rtr_false_eq (now : ℤ) (opp : RiskOpportunity) (st : RiskState) :
    recordTradeResult now opp false st =
      (if maxConsecutiveFailures ≤ st.consecutiveFailures + 1 then
        pauseSystem ("Too many consecutive failures: " ++ toString (st.consecutiveFailures + 1))
          { st with totalTrades := st.totalTrades + 1, lastTradeTime := now
                    consecutiveFailures := st.consecutiveFailures + 1
                    dailyLoss := st.dailyLoss + opp.estimatedProfit }
      else
        { st with totalTrades := st.totalTrades + 1, lastTradeTime := now
                  consecutiveFailures := st.consecutiveFailures + 1
                  dailyLoss := st.dailyLoss + opp.estimatedProfit }) := rfl

lemma waitChecks_polls_le (env : ExecEnv) (l : List ℕ) :
    (waitChecks env l).2 ≤ l.length := by
  induction l with
  | nil => simp [waitChecks]
  | cons i rest ih =>
    simp only [waitChecks, List.length_cons]
    split_ifs
    · simp
    · simp
    · simpa using ih

lemma waitChecks_not_mined (env : ExecEnv) (l : List ℕ)
    (hb : ∀ i ∈ l, env.blockOk i = true) (hm : ∀ i ∈ l, env.isMined i = false) :
    waitChecks env l =
      ({ success := false, error := some "Bundle not included within wait period" },
        l.length) := by
  induction l with
  | nil => rfl
  | cons i rest ih =>
    have hbi : env.blockOk i = true := hb i (by simp)
    have hmi : env.isMined i = false := hm i (by simp)
    have ih' := ih (fun j hj => hb j (by simp [hj])) (fun j hj => hm j (by simp [hj]))
    simp [waitChecks, hbi, hmi, ih']

/-- C5 (counterexample): with an accumulated daily loss and the 24-hour window
fully elapsed, a `recordTradeResult` call does not reset the daily counters —
contrary to the claim that either `assessRisk` or `recordTradeResult` resets
them once 24 h have passed. -/
theorem c5_counterexample :
    (24 * 60 * 60 * 1000 : ℤ) ≤ 86400000 - rs5.lastResetTime ∧
    (recordTradeResult 86400000 ⟨1, 1⟩ true rs5).dailyLoss = 5 ∧
    (recordTradeResult 86400000 ⟨1, 1⟩ true rs5).dailyLoss ≠ 0 := by
  refine ⟨by decide, by decide, by decide⟩

/-- C5 (amended): the daily counters are reset exactly by
`resetDailyCountersIfNeeded` — invoked by `assessRisk`, and only when 24 hours
have elapsed since `lastResetTime`, never before — while `recordTradeResult`
never resets them: it leaves `lastResetTime` unchanged and only adds the trade
profit to `dailyProfit` (success) or `dailyLoss` (failure). -/
theorem c5_daily_reset_only_in_assess (now : ℤ) (st : RiskState) (opp : RiskOpportunity) :
    ((24 * 60 * 60 * 1000 : ℤ) ≤ now - st.lastResetTime →
      resetDailyCountersIfNeeded now st =
        { st with dailyLoss := 0, dailyProfit := 0, lastResetTime := now }) ∧
    (now - st.lastResetTime < 24 * 60 * 60 * 1000 →
      resetDailyCountersIfNeeded now st = st) ∧
    (assessRisk now st opp).2 = resetDailyCountersIfNeeded now st ∧
    (∀ b, (recordTradeResult now opp b st).lastResetTime = st.lastResetTime) ∧
    (∀ b, (recordTradeResult now opp b st).dailyLoss =
      st.dailyLoss + (if b then 0 else opp.estimatedProfit)) ∧
    (∀ b, (recordTradeResult now opp b st).dailyProfit =
      st.dailyProfit + (if b then opp.estimatedProfit else 0)) := by
  refine ⟨?_, ?_, ?_, ?_, ?_, ?_⟩
  · intro h
    simp only [resetDailyCountersIfNeeded]
    rw [if_pos (by omega)]
  · intro h
    simp only [resetDailyCountersIfNeeded]
    rw [if_neg (by omega)]
  · simp only [assessRisk]
    split <;> rfl
  · intro b
    cases b
    · rw [rtr_false_eq]
      split <;> rfl
    · rw [rtr_true_eq]
  · intro b
    cases b
    · rw [rtr_false_eq]
      split <;> rfl
    · rw [rtr_true_eq]
      simp [pauseSystem]
  · intro b
    cases b
    · rw [rtr_false_eq]
      split <;> simp [pauseSystem]
    · rw [rtr_true_eq]
      simp

/-- C5 (witness): the amended theorem applied at the 24-hour boundary. -/
theorem c5_daily_reset_only_in_assess_witness :
    ((24 * 60 * 60 * 1000 : ℤ) ≤ 86400000 - rs5.lastResetTime) ∧
    resetDailyCountersIfNeeded 86400000 rs5 =
      { rs5 with dailyLoss := 0, dailyProfit := 0, lastResetTime := 86400000 } :=
  ⟨by decide, (c5_daily_reset_only_in_assess 86400000 rs5 ⟨1, 1⟩).1 (by decide)⟩

/-- C9: `calculateVolatility` equals the standard deviation of the successive
fractional returns `(p[i] − p[i−1]) / p[i−1]` over the last `window` samples
(as modelled from the spec by `stddevOfReturns`), returns 0 whenever fewer
than 2 samples exist, and is always nonnegative. -/
theorem c9_volatility_spec (history : List ℚ) (periods : ℕ) :
    calculateVolatility history periods = stddevOfReturns (sliceLast history periods) ∧
    ((sliceLast history periods).length < 2 → calculateVolatility history periods = 0) ∧
    0 ≤ calculateVolatility history periods := by
  refine ⟨?_, ?_, ?_⟩
  · simp only [calculateVolatility, stddevOfReturns]
    by_cases h : (sliceLast history periods).length < 2
    · rw [if_pos h, if_pos h]
    · rw [if_neg h, if_neg h]
      have hlen : (fracReturns (sliceLast history periods)).length
          = (sliceLast history periods).length - 1 := fracReturns_length _
      rw [if_neg (by omega)]
  · intro h
    simp only [calculateVolatility]
    rw [if_pos h]
  · simp only [calculateVolatility]
    by_cases h : (sliceLast history periods).length < 2
    · rw [if_pos h]
    · rw [if_neg h]
      by_cases h2 : (fracReturns (sliceLast history periods)).length = 0
      · rw [if_pos h2]
      · rw [if_neg h2]
        exact Real.sqrt_nonneg _

/-- C9 (witness): an empty price history has fewer than 2 samples in the
window, and its volatility is 0. -/
theorem c9_volatility_spec_witness :
    (sliceLast [] 20).length < 2 ∧ calculateVolatility [] 20 = 0 :=
  ⟨by decide, (c9_volatility_spec [] 20).2.1 (by decide)⟩

/-- C6: `executeBundle` performs at most 3 inclusion polls; when the
submission succeeds and the bundle is mined in none of the 3 polled blocks,
it returns `success = false` with an error containing "not included" after
exactly 3 polls; a submission-time error returns a failure immediately with
zero polls.  (Every throwing path of the source is caught and converted to a
returned failure value, which the embedding reflects by being a total function
into results.) -/
theorem c6_bounded_inclusion_wait (env : ExecEnv) (txCount : ℕ) :
    (executeBundle env txCount).2 ≤ 3 ∧
    (txCount ≠ 0 →
      ∀ h : String, env.submitOutcome = Except.ok h →
        (∀ i, i < 3 → env.blockOk i = true ∧ env.isMined i = false) →
        (executeBundle env txCount).1.success = false ∧
        (∃ e, (executeBundle env txCount).1.error = some e ∧
          containsStr "not included" e = true) ∧
        (executeBundle env txCount).2 = 3) ∧
    (txCount ≠ 0 → ∀ e, env.submitOutcome = Except.error e →
      (executeBundle env txCount).1.success = false ∧
      (executeBundle env txCount).1.error = some ("Bundle submission failed: " ++ e) ∧
      (executeBundle env txCount).2 = 0) := by
  refine ⟨?_, ?_, ?_⟩
  · simp only [executeBundle]
    split
    · simp
    · cases hs : env.submitOutcome with
      | error e => simp
      | ok h =>
        simpa [waitForBundleInclusion] using waitChecks_polls_le env [0, 1, 2]
  · intro hn h hok hall
    have hwait : waitForBundleInclusion env =
        ({ success := false, error := some "Bundle not included within wait period" }, 3) := by
      have := waitChecks_not_mined env [0, 1, 2]
        (by intro i hi; fin_cases hi <;> exact (hall _ (by norm_num)).1)
        (by intro i hi; fin_cases hi <;> exact (hall _ (by norm_num)).2)
      simpa [waitForBundleInclusion] using this
    simp only [executeBundle, hok]
    rw [if_neg hn, hwait]
    exact ⟨rfl, ⟨_, rfl, by decide⟩, rfl⟩
  · intro hn e he
    simp only [executeBundle, he]
    rw [if_neg hn]
    exact ⟨rfl, rfl, rfl⟩

/-- C6 (witness): the theorem applied to a relay that accepts the bundle but
never includes it, and to a relay that rejects the submission. -/
theorem c6_bounded_inclusion_wait_witness :
    ((executeBundle envNotIncluded 1).1.success = false ∧
      (∃ e, (executeBundle envNotIncluded 1).1.error = some e ∧
        containsStr "not included" e = true) ∧
      (executeBundle envNotIncluded 1).2 = 3) ∧
    ((executeBundle envRejected 1).1.success = false ∧
      (executeBundle envRejected 1).1.error =
        some ("Bundle submission failed: " ++ "relay rejected bundle") ∧
      (executeBundle envRejected 1).2 = 0) :=
  ⟨(c6_bounded_inclusion_wait envNotIncluded 1).2.1 (by decide) "0xbundle" rfl
      (fun i _ => ⟨rfl, rfl⟩),
    (c6_bounded_inclusion_wait envRejected 1).2.2 (by decide) "relay rejected bundle" rfl⟩

/-- C3 (counterexample): a concrete quote environment whose best round trip
earns 0.002 ETH — above the raw 0.001 ETH floor, so `findArbitrageOpportunity`
constructs the opportunity — while the code's own gas estimate at a 100 gwei
gas price is 0.03 ETH, making the net profit after fees negative.  The claim
that an opportunity with non-positive net profit after fees is never
constructed is therefore false: construction never subtracts the fee/gas
estimate (`calculateGasCosts` is only consulted in `validateOpportunity`). -/
theorem c3_counterexample :
    findArbitrageOpportunity envGasHeavy =
      some { amount := 10 ^ 18, estimatedProfit := 2 * 10 ^ 15,
             minProfit := Int.tdiv (2 * 10 ^ 15 * 95) 100,
             profitability := ((2 * 10 ^ 15 : ℤ) : ℚ) / 10 ^ 18 } ∧
    Int.tdiv (2 * 10 ^ 15 * 95) 100 = 19 * 10 ^ 14 ∧
    (2 * 10 ^ 15 : ℤ) - calculateGasCosts (100 * 10 ^ 9) < 0 := by
  refine ⟨by rfl, by decide, by norm_num [calculateGasCosts]⟩

/-- C3 (amended): every opportunity returned by `findArbitrageOpportunity`
satisfies `minProfit ≤ estimatedProfit` (the minimum is 95 % of the estimate)
and `estimatedProfit` strictly above the raw 0.001 ETH profit floor; the
floor is applied to the raw round-trip profit, before any fee/gas estimate
(fee accounting happens only in the separate `validateOpportunity` stage). -/
theorem c3_profit_floor (env : QuoteEnv) (o : ArbOpportunity)
    (h : findArbitrageOpportunity env = some o) :
    o.minProfit ≤ o.estimatedProfit ∧ (10 ^ 15 : ℤ) < o.estimatedProfit := by
  unfold findArbitrageOpportunity at h
  rcases hscan : scanAmounts env testAmounts (none, 0) with ⟨best, maxP⟩
  rw [hscan] at h
  cases best with
  | none => simp [constructOpportunity] at h
  | some b =>
    simp only [constructOpportunity] at h
    by_cases hp : (10 ^ 15 : ℤ) < maxP
    · rw [if_pos hp] at h
      have ho := Option.some.inj h
      subst ho
      have hmp : (0 : ℤ) ≤ maxP :=
        le_of_lt (lt_trans (by norm_num) hp)
      exact ⟨tdiv95_le maxP hmp, hp⟩
    · rw [if_neg hp] at h
      cases h

/-- C3 (witness): the amended theorem applied to the concrete environment of
the counterexample. -/
theorem c3_profit_floor_witness :
    ({ amount := 10 ^ 18, estimatedProfit := 2 * 10 ^ 15,
       minProfit := Int.tdiv (2 * 10 ^ 15 * 95) 100,
       profitability := ((2 * 10 ^ 15 : ℤ) : ℚ) / 10 ^ 18 } : ArbOpportunity).minProfit ≤
      ({ amount := 10 ^ 18, estimatedProfit := 2 * 10 ^ 15,
         minProfit := Int.tdiv (2 * 10 ^ 15 * 95) 100,
         profitability := ((2 * 10 ^ 15 : ℤ) : ℚ) / 10 ^ 18 } : ArbOpportunity).estimatedProfit ∧
    (10 ^ 15 : ℤ) <
      ({ amount := 10 ^ 18, estimatedProfit := 2 * 10 ^ 15,
         minProfit := Int.tdiv (2 * 10 ^ 15 * 95) 100,
         profitability := ((2 * 10 ^ 15 : ℤ) : ℚ) / 10 ^ 18 } : ArbOpportunity).estimatedProfit :=
  c3_profit_floor envGasHeavy _ (by rfl)

lemma assessRisk_not_paused (now : ℤ) (st : RiskState) (opp : RiskOpportunity)
    (h : (resetDailyCountersIfNeeded now st).isPaused = false) :
    assessRisk now st opp =
      ({ approved := (riskChecks now (resetDailyCountersIfNeeded now st) opp).all
            (fun c => c.passed) &&
            decide (calculateRiskScore
              (riskChecks now (resetDailyCountersIfNeeded now st) opp) < 0.7)
         riskScore := calculateRiskScore
            (riskChecks now (resetDailyCountersIfNeeded now st) opp)
         checks := riskChecks now (resetDailyCountersIfNeeded now st) opp
         reason := assessReason
            ((riskChecks now (resetDailyCountersIfNeeded now st) opp).all
              (fun c => c.passed) &&
              decide (calculateRiskScore
                (riskChecks now (resetDailyCountersIfNeeded now st) opp) < 0.7)) },
       resetDailyCountersIfNeeded now st) := by
  simp only [assessRisk]
  rw [if_neg (by simp [h])]

/-- C4 (counterexample): the ten check weights of `assessRisk`
(0.2 + 0.3 + 0.2 + 0.15 + 0.1 + 0.1 + 0.05 + 0.2 + 0.15 + 0.1) sum to 1.55,
not the claimed 1.0. -/
theorem c4_counterexample :
    ((riskChecks 0 rsZero ⟨0, 0⟩).map (fun c => c.weight)).sum = 31 / 20 ∧
    ((riskChecks 0 rsZero ⟨0, 0⟩).map (fun c => c.weight)).sum ≠ 1 := by
  refine ⟨riskChecks_weights_sum 0 rsZero ⟨0, 0⟩, ?_⟩
  rw [riskChecks_weights_sum]
  norm_num

/-- C4 (amended): for an unpaused state, the risk score of `assessRisk` equals
the sum of the weights of the failed checks divided by the sum of all check
weights, hence lies in `[0, 1]`; the ten weights sum to 1.55 (not 1.0); and
`approved` holds exactly when every check passes and the risk score is below
0.7 — `assessRisk` takes no signal, so no confidence-floor conjunct appears
(the orchestrator applies `confidence > 0.7` separately, outside the gate). -/
theorem c4_risk_score (now : ℤ) (st : RiskState) (opp : RiskOpportunity)
    (h : st.isPaused = false) :
    (assessRisk now st opp).1.checks =
      riskChecks now (resetDailyCountersIfNeeded now st) opp ∧
    (assessRisk now st opp).1.riskScore =
      (((riskChecks now (resetDailyCountersIfNeeded now st) opp).filter
          (fun c => !c.passed)).map (fun c => c.weight)).sum /
        ((riskChecks now (resetDailyCountersIfNeeded now st) opp).map
          (fun c => c.weight)).sum ∧
    0 ≤ (assessRisk now st opp).1.riskScore ∧
    (assessRisk now st opp).1.riskScore ≤ 1 ∧
    ((riskChecks now (resetDailyCountersIfNeeded now st) opp).map
      (fun c => c.weight)).sum = 31 / 20 ∧
    ((assessRisk now st opp).1.approved = true ↔
      ((riskChecks now (resetDailyCountersIfNeeded now st) opp).all
          (fun c => c.passed) = true ∧
        (assessRisk now st opp).1.riskScore < 0.7)) := by
  have h1 : (resetDailyCountersIfNeeded now st).isPaused = false := by
    rw [reset_isPaused]
    exact h
  rw [assessRisk_not_paused now st opp h1]
  have htot : ((riskChecks now (resetDailyCountersIfNeeded now st) opp).map
      (fun c => c.weight)).sum = 31 / 20 :=
    riskChecks_weights_sum now (resetDailyCountersIfNeeded now st) opp
  have htotpos : (0 : ℚ) <
      ((riskChecks now (resetDailyCountersIfNeeded now st) opp).map
        (fun c => c.weight)).sum := by
    rw [htot]
    norm_num
  have hbounds := failedWeight_bounds
    (riskChecks now (resetDailyCountersIfNeeded now st) opp)
    (riskChecks_weights_nonneg now (resetDailyCountersIfNeeded now st) opp)
  have hscore : calculateRiskScore
      (riskChecks now (resetDailyCountersIfNeeded now st) opp) =
      (((riskChecks now (resetDailyCountersIfNeeded now st) opp).filter
          (fun c => !c.passed)).map (fun c => c.weight)).sum /
        ((riskChecks now (resetDailyCountersIfNeeded now st) opp).map
          (fun c => c.weight)).sum := by
    simp only [calculateRiskScore]
    rw [if_pos htotpos, failedWeight_eq_filter]
  refine ⟨rfl, hscore, ?_, ?_, htot, ?_⟩
  · rw [hscore, ← failedWeight_eq_filter]
    exact div_nonneg hbounds.1 (le_of_lt htotpos)
  · rw [hscore, ← failedWeight_eq_filter]
    exact (div_le_one htotpos).mpr hbounds.2
  · simp only [Bool.and_eq_true, decide_eq_true_eq]

/-- C4 (witness): the amended theorem applied to a fresh unpaused state and a
modest opportunity. -/
theorem c4_risk_score_witness :
    rsZero.isPaused = false ∧
    0 ≤ (assessRisk 100000000 rsZero oppSmall).1.riskScore ∧
    (assessRisk 100000000 rsZero oppSmall).1.riskScore ≤ 1 ∧
    ((riskChecks 100000000 (resetDailyCountersIfNeeded 100000000 rsZero) oppSmall).map
      (fun c => c.weight)).sum = 31 / 20 :=
  ⟨rfl, (c4_risk_score 100000000 rsZero oppSmall rfl).2.2.1,
    (c4_risk_score 100000000 rsZero oppSmall rfl).2.2.2.1,
    (c4_risk_score 100000000 rsZero oppSmall rfl).2.2.2.2.1⟩

lemma rtr_false_cf (now : ℤ) (opp : RiskOpportunity) (st : RiskState) :
    (recordTradeResult now opp false st).consecutiveFailures =
      st.consecutiveFailures + 1 := by
  rw [rtr_false_eq]
  split <;> rfl

lemma rtr_false_paused_reason (now : ℤ) (opp : RiskOpportunity) (st : RiskState)
    (h : maxConsecutiveFailures ≤ st.consecutiveFailures + 1) :
    (recordTradeResult now opp false st).isPaused = true ∧
    (recordTradeResult now opp false st).pauseReason =
      some ("Too many consecutive failures: " ++
        toString (st.consecutiveFailures + 1)) := by
  rw [rtr_false_eq, if_pos h]
  exact ⟨rfl, rfl⟩

lemma rtr_preserves_paused (now : ℤ) (opp : RiskOpportunity) (b : Bool)
    (st : RiskState) (h : st.isPaused = true) :
    (recordTradeResult now opp b st).isPaused = true := by
  cases b
  · rw [rtr_false_eq]
    split
    · rfl
    · exact h
  · rw [rtr_true_eq]
    exact h

lemma assess_paused (now : ℤ) (st : RiskState) (opp : RiskOpportunity)
    (h : st.isPaused = true) :
    (assessRisk now st opp).1.approved = false ∧
    (assessRisk now st opp).2.isPaused = true := by
  have h1 : (resetDailyCountersIfNeeded now st).isPaused = true := by
    rw [reset_isPaused]
    exact h
  simp only [assessRisk]
  rw [if_pos h1]
  exact ⟨rfl, h1⟩

/-- C1: after three consecutive failed `recordTradeResult` calls — starting
from any risk state — the system is paused with a pause reason containing
"consecutive failures"; while paused, every `assessRisk` call returns
`approved = false` and leaves the system paused, and further recorded trades
keep it paused, so only `resumeSystem` unpauses it; a successful
`recordTradeResult` resets `consecutiveFailures` to 0. -/
theorem c1_consecutive_failure_circuit_breaker (st : RiskState) (t1 t2 t3 : ℤ)
    (o1 o2 o3 : RiskOpportunity) (st3 : RiskState)
    (hst3 : st3 = recordTradeResult t3 o3 false (recordTradeResult t2 o2 false
      (recordTradeResult t1 o1 false st))) :
    st3.isPaused = true ∧
    (∃ r, st3.pauseReason = some r ∧ containsStr "consecutive failures" r = true) ∧
    (∀ now opp, (assessRisk now st3 opp).1.approved = false ∧
      (assessRisk now st3 opp).2.isPaused = true) ∧
    (∀ t opp b, (recordTradeResult t opp b st3).isPaused = true) ∧
    (resumeSystem st3).isPaused = false ∧
    (∀ st' : RiskState, ∀ t : ℤ, ∀ opp : RiskOpportunity,
      (recordTradeResult t opp true st').consecutiveFailures = 0) := by
  have hcf2 : (recordTradeResult t2 o2 false
      (recordTradeResult t1 o1 false st)).consecutiveFailures =
      st.consecutiveFailures + 2 := by
    rw [rtr_false_cf, rtr_false_cf]
  have key := rtr_false_paused_reason t3 o3
    (recordTradeResult t2 o2 false (recordTradeResult t1 o1 false st))
    (by rw [hcf2, maxConsecutiveFailures]; omega)
  rw [hcf2] at key
  rw [← hst3] at key
  refine ⟨key.1, ⟨_, key.2, ?_⟩, ?_, ?_, rfl, ?_⟩
  · exact containsStr_append _ _ _ (by decide)
  · intro now opp
    exact assess_paused now st3 opp key.1
  · intro t opp b
    exact rtr_preserves_paused t opp b st3 key.1
  · intro st' t opp
    rw [rtr_true_eq]

/-- C1 (witness): three failed trades recorded on a fresh state at times 10,
20, 30 pause the system with reason "Too many consecutive failures: 3". -/
theorem c1_circuit_breaker_witness :
    st3demo.isPaused = true ∧
    (∃ r, st3demo.pauseReason = some r ∧ containsStr "consecutive failures" r = true) ∧
    (∀ now opp, (assessRisk now st3demo opp).1.approved = false ∧
      (assessRisk now st3demo opp).2.isPaused = true) ∧
    (∀ t opp b, (recordTradeResult t opp b st3demo).isPaused = true) ∧
    (resumeSystem st3demo).isPaused = false ∧
    (∀ st' : RiskState, ∀ t : ℤ, ∀ opp : RiskOpportunity,
      (recordTradeResult t opp true st').consecutiveFailures = 0) :=
  c1_consecutive_failure_circuit_breaker rsZero 10 20 30 oppSmall oppSmall oppSmall
    st3demo rfl

end FlashBot
